import Mathlib

/-!
Verification of the MIFARE Classic manipulation tool (examples/nfc-mfclassic.c).

The development shallowly embeds the source file's sector geometry helpers,
the brute-force/key-file authenticator, the full-card read and write passes,
and the payload extractor.  The radio transport is modelled as an oracle of
pure functions; every transport command issued by the embedded code is
recorded in an event trace so that ordering and frame properties can be
stated about the passes.
-/

namespace MFC

/-- Source: is_first_block.  A block starts its sector (modulus 4 below block
128, modulus 16 at or above it). -/
def is_first_block (uiBlock : Nat) : Bool :=
  if uiBlock < 128 then uiBlock % 4 == 0 else uiBlock % 16 == 0

/-- Source: is_trailer_block.  A block ends its sector (same modulus rule). -/
def is_trailer_block (uiBlock : Nat) : Bool :=
  if uiBlock < 128 then (uiBlock + 1) % 4 == 0 else (uiBlock + 1) % 16 == 0

/-- Source: get_trailer_block.  Index of the trailer block of the sector
containing the given block. -/
def get_trailer_block (uiFirstBlock : Nat) : Nat :=
  if uiFirstBlock < 128 then
    uiFirstBlock + (3 - uiFirstBlock % 4)
  else
    uiFirstBlock + (15 - uiFirstBlock % 16)

/-- Two block indices lie in the same sector: both below 128 sharing a
4-block sector, or both at/above 128 sharing a 16-block sector. -/
def sameSector (a b : Nat) : Bool :=
  if a < 128 then b < 128 && (a / 4 == b / 4)
  else !(b < 128) && (a / 16 == b / 16)

/-- Characterisation of sameSector as arithmetic on div. -/
lemma sameSector_eq_true (a c : Nat) :
    sameSector a c = true ↔
      ((a < 128 ∧ c < 128 ∧ a / 4 = c / 4) ∨
       (128 ≤ a ∧ 128 ≤ c ∧ a / 16 = c / 16)) := by
  unfold sameSector
  split <;> simp [Bool.and_eq_true, beq_iff_eq, Nat.not_lt] <;> omega

/-- Characterisation of is_first_block as arithmetic on mod. -/
lemma is_first_block_eq_true (c : Nat) :
    is_first_block c = true ↔
      ((c < 128 ∧ c % 4 = 0) ∨ (128 ≤ c ∧ c % 16 = 0)) := by
  unfold is_first_block
  split <;> simp [beq_iff_eq, Nat.not_lt] <;> omega

/-- Characterisation of is_trailer_block as arithmetic on mod. -/
lemma is_trailer_block_eq_true (c : Nat) :
    is_trailer_block c = true ↔
      ((c < 128 ∧ (c + 1) % 4 = 0) ∨ (128 ≤ c ∧ (c + 1) % 16 = 0)) := by
  unfold is_trailer_block
  split <;> simp [beq_iff_eq, Nat.not_lt] <;> omega

/-- Claim C8: for every block index in [0,255] (hence also in [0,63]), the
sector of the block contains exactly one first block and exactly one trailer
block (modulus 4 below block 128, modulus 16 at or above it);
get_trailer_block sends every block of the sector to that unique trailer;
and get_trailer_block is idempotent. -/
theorem c8_sector_geometry (b : Nat) (h : b < 256) :
    (∃ f : Nat, sameSector b f = true ∧ is_first_block f = true ∧
       ∀ x : Nat, sameSector b x = true → is_first_block x = true → x = f) ∧
    sameSector b (get_trailer_block b) = true ∧
    is_trailer_block (get_trailer_block b) = true ∧
    (∀ x : Nat, sameSector b x = true → is_trailer_block x = true →
       x = get_trailer_block b) ∧
    get_trailer_block (get_trailer_block b) = get_trailer_block b := by
  refine ⟨⟨if b < 128 then 4 * (b / 4) else 16 * (b / 16), ?_, ?_, ?_⟩,
    ?_, ?_, ?_, ?_⟩
  · rw [sameSector_eq_true]; split_ifs <;> omega
  · rw [is_first_block_eq_true]; split_ifs <;> omega
  · intro x hx hfx
    rw [sameSector_eq_true] at hx
    rw [is_first_block_eq_true] at hfx
    split_ifs <;> omega
  · rw [sameSector_eq_true]; unfold get_trailer_block; split_ifs <;> omega
  · rw [is_trailer_block_eq_true]; unfold get_trailer_block
    split_ifs <;> omega
  · intro x hx htx
    rw [sameSector_eq_true] at hx
    rw [is_trailer_block_eq_true] at htx
    unfold get_trailer_block
    split_ifs <;> omega
  · unfold get_trailer_block; split_ifs <;> omega

/-- Witness for C8 at the concrete block index 200. -/
theorem c8_sector_geometry_witness :
    (200 : Nat) < 256 ∧
    ((∃ f : Nat, sameSector 200 f = true ∧ is_first_block f = true ∧
        ∀ x : Nat, sameSector 200 x = true → is_first_block x = true → x = f) ∧
     sameSector 200 (get_trailer_block 200) = true ∧
     is_trailer_block (get_trailer_block 200) = true ∧
     (∀ x : Nat, sameSector 200 x = true → is_trailer_block x = true →
        x = get_trailer_block 200) ∧
     get_trailer_block (get_trailer_block 200) = get_trailer_block 200) :=
  ⟨by decide, c8_sector_geometry 200 (by decide)⟩

/-- Source: the static `keys` array, eight 6-byte well-known candidate keys
in declared order (num_keys = 8). -/
def keysList : List (List Nat) :=
  [[0xff, 0xff, 0xff, 0xff, 0xff, 0xff],
   [0xd3, 0xf7, 0xd3, 0xf7, 0xd3, 0xf7],
   [0xa0, 0xa1, 0xa2, 0xa3, 0xa4, 0xa5],
   [0xb0, 0xb1, 0xb2, 0xb3, 0xb4, 0xb5],
   [0x4d, 0x3a, 0x99, 0xc3, 0x51, 0xdd],
   [0x1a, 0x98, 0x2c, 0x7e, 0x45, 0x9a],
   [0xaa, 0xbb, 0xcc, 0xdd, 0xee, 0xff],
   [0x00, 0x00, 0x00, 0x00, 0x00, 0x00]]

/-- Transport oracle: outcome of each command the tool can issue.
select is the anti-collision tag (re)selection, auth the MC_AUTH_A/B
exchange for a block and key, read/write the MC_READ/MC_WRITE exchanges. -/
structure Transport where
  selectOk : Bool
  authOk : Nat → List Nat → Bool
  readOk : Nat → Bool
  readData : Nat → List Nat
  writeOk : Nat → Bool

/-- One transport command recorded in the event trace. -/
inductive Event where
  | select : Event
  | auth : Nat → List Nat → Event
  | read : Nat → Event
  | write : Nat → List Nat → Event
deriving DecidableEq, Repr

/-- The working key table mtKeys: per block index, a Key A and a Key B
entry of 6 bytes each. -/
structure KeysTable where
  keyA : Nat → List Nat
  keyB : Nat → List Nat

/-- All-zero key table (the tool's mtKeys when no key file is loaded). -/
def zeroTable : KeysTable :=
  ⟨fun _ => List.replicate 6 0, fun _ => List.replicate 6 0⟩

/-- Store a discovered key in the table at block b, in the Key A entry when
ua is true and in the Key B entry otherwise (the memcpy into
mtKeys.amb[uiBlock].mbt in authenticate). -/
def updTable (ktab : KeysTable) (ua : Bool) (b : Nat) (k : List Nat) :
    KeysTable :=
  if ua then
    ⟨fun n => if n = b then k else ktab.keyA n, ktab.keyB⟩
  else
    ⟨ktab.keyA, fun n => if n = b then k else ktab.keyB n⟩

/-- Source: the brute-force loop of authenticate.  Walks the candidate list
in order; each candidate is tried with one auth command; on failure a tag
reselection is issued before the next candidate; the first accepted
candidate is returned. -/
def authAttempts (T : Transport) (b : Nat) :
    List (List Nat) → Option (List Nat) × List Event
  | [] => (none, [])
  | k :: ks =>
    if T.authOk b k then (some k, [Event.auth b k])
    else
      let r := authAttempts T b ks
      (r.1, Event.auth b k :: Event.select :: r.2)

/-- Source: authenticate.  In key-file mode (ukf) the stored key of the
sector trailer for the requested preference is tried once; otherwise the
brute-force loop runs and, on success, the discovered key is cached at the
authenticated block index for the requested preference. -/
def authenticate (T : Transport) (ukf ua : Bool) (ktab : KeysTable)
    (b : Nat) : Bool × KeysTable × List Event :=
  if ukf then
    let k := if ua then ktab.keyA (get_trailer_block b)
             else ktab.keyB (get_trailer_block b)
    (T.authOk b k, ktab, [Event.auth b k])
  else
    match authAttempts T b keysList with
    | (some k, evs) => (true, updTable ktab ua b k, evs)
    | (none, evs) => (false, ktab, evs)

/-- Keys actually offered to the transport, in order, read off a trace. -/
def attemptedKeys (evs : List Event) : List (List Nat) :=
  evs.filterMap (fun e =>
    match e with
    | Event.auth _ k => some k
    | _ => none)

/-- Spine of C4: the brute-force loop attempts exactly the candidates up to
and including the first accepted one, in list order, and its result is the
first accepted candidate. -/
lemma authAttempts_spec (T : Transport) (b : Nat) :
    ∀ ks : List (List Nat),
      (authAttempts T b ks).1 = ks.find? (T.authOk b) ∧
      attemptedKeys (authAttempts T b ks).2 =
        ks.takeWhile (fun k => !T.authOk b k) ++
          (ks.find? (T.authOk b)).toList := by
  intro ks
  induction ks with
  | nil => simp [authAttempts, attemptedKeys]
  | cons k ks ih =>
    by_cases hk : T.authOk b k = true
    · simp [authAttempts, hk, attemptedKeys, List.find?_cons_of_pos,
        List.takeWhile_cons, List.filterMap]
    · have hk' : T.authOk b k = false := by
        cases hkk : T.authOk b k
        · rfl
        · exact absurd hkk hk
      simp only [authAttempts, hk', if_false, attemptedKeys,
        List.filterMap_cons, List.find?_cons, hk']
      simp only [attemptedKeys] at ih
      simp [ih.1, ih.2, List.takeWhile_cons, hk']

/-- Result and trace of brute-force authenticate, reduced to the candidate
search: success iff some candidate is accepted, and the trace is exactly the
brute-force loop's trace. -/
lemma authenticate_bf_reduce (T : Transport) (ua : Bool) (ktab : KeysTable)
    (b : Nat) :
    (authenticate T false ua ktab b).1 =
      (keysList.find? (T.authOk b)).isSome ∧
    (authenticate T false ua ktab b).2.2 = (authAttempts T b keysList).2 := by
  have h := (authAttempts_spec T b keysList).1
  rcases hm : authAttempts T b keysList with ⟨o, evs⟩
  rw [hm] at h
  cases o with
  | none => rw [← h]; simp [authenticate, hm]
  | some k => rw [← h]; simp [authenticate, hm]

/-- Card whose key (for either preference) is exactly the third candidate
of the well-known list; all other transport commands succeed. -/
def thirdKeyCard : Transport where
  selectOk := true
  authOk := fun _ k => decide (k = [0xa0, 0xa1, 0xa2, 0xa3, 0xa4, 0xa5])
  readOk := fun _ => true
  readData := fun _ => List.replicate 16 0
  writeOk := fun _ => true

/-- Card that accepts none of the candidate keys. -/
def noKeyCard : Transport :=
  { thirdKeyCard with authOk := fun _ _ => false }

/-- Claim C4: brute-force authenticate tries the fixed candidate list in
declared order, one transport authentication per candidate (the list is
duplicate-free and the attempted keys are exactly the prefix up to and
including the first accepted candidate), succeeds exactly when some
candidate is accepted; with the card key equal to the 3rd candidate exactly
3 attempts occur and the result is success, and with no candidate accepted
all 8 are attempted and the result is failure. -/
theorem c4_bruteforce_first_success :
    keysList.Nodup ∧
    (∀ (T : Transport) (ua : Bool) (ktab : KeysTable) (b : Nat),
      (authenticate T false ua ktab b).1 =
        (keysList.find? (T.authOk b)).isSome ∧
      attemptedKeys (authenticate T false ua ktab b).2.2 =
        keysList.takeWhile (fun k => !T.authOk b k) ++
          (keysList.find? (T.authOk b)).toList) ∧
    ((authenticate thirdKeyCard false true zeroTable 7).1 = true ∧
     attemptedKeys (authenticate thirdKeyCard false true zeroTable 7).2.2 =
       keysList.take 3 ∧
     (attemptedKeys
        (authenticate thirdKeyCard false true zeroTable 7).2.2).length = 3) ∧
    ((authenticate noKeyCard false true zeroTable 7).1 = false ∧
     (attemptedKeys
        (authenticate noKeyCard false true zeroTable 7).2.2).length = 8) := by
  refine ⟨by decide, ?_, by decide, by decide⟩
  intro T ua ktab b
  have hr := authenticate_bf_reduce T ua ktab b
  refine ⟨hr.1, ?_⟩
  rw [hr.2]
  exact (authAttempts_spec T b keysList).2

/-- Claim C10: when brute-force authentication at block b succeeds, the
discovered (first accepted) candidate is cached in the working key table at
index b itself, in the entry of the requested preference, and every other
table entry — including the sector trailer's entry — is unchanged. -/
theorem c10_key_cache_placement (T : Transport) (ua : Bool)
    (ktab : KeysTable) (b : Nat)
    (h : (authenticate T false ua ktab b).1 = true) :
    (∀ j : Nat, j ≠ b →
      (authenticate T false ua ktab b).2.1.keyA j = ktab.keyA j ∧
      (authenticate T false ua ktab b).2.1.keyB j = ktab.keyB j) ∧
    (ua = true →
      (authenticate T false ua ktab b).2.1.keyB b = ktab.keyB b ∧
      ∃ k, keysList.find? (T.authOk b) = some k ∧
        (authenticate T false ua ktab b).2.1.keyA b = k) ∧
    (ua = false →
      (authenticate T false ua ktab b).2.1.keyA b = ktab.keyA b ∧
      ∃ k, keysList.find? (T.authOk b) = some k ∧
        (authenticate T false ua ktab b).2.1.keyB b = k) := by
  have hspec := (authAttempts_spec T b keysList).1
  rcases hm : authAttempts T b keysList with ⟨o, evs⟩
  rw [hm] at hspec
  cases o with
  | none =>
    exfalso
    simp [authenticate, hm] at h
  | some k =>
    have hfind : keysList.find? (T.authOk b) = some k := hspec.symm
    cases ua with
    | false =>
      refine ⟨?_, ?_, ?_⟩
      · intro j hj
        constructor <;> simp [authenticate, hm, updTable, hj]
      · intro hba; exact absurd hba (by decide)
      · intro _
        exact ⟨by simp [authenticate, hm, updTable], k, hfind,
          by simp [authenticate, hm, updTable]⟩
    | true =>
      refine ⟨?_, ?_, ?_⟩
      · intro j hj
        constructor <;> simp [authenticate, hm, updTable, hj]
      · intro _
        exact ⟨by simp [authenticate, hm, updTable], k, hfind,
          by simp [authenticate, hm, updTable]⟩
      · intro hba; exact absurd hba (by decide)

/-- Witness for C10: the write pass authenticates at a sector's first block
(block 4); the discovered third candidate is cached at entry 4 and the
trailer entry 7 is untouched. -/
theorem c10_key_cache_placement_witness :
    (authenticate thirdKeyCard false true zeroTable 4).1 = true ∧
    ((∀ j : Nat, j ≠ 4 →
       (authenticate thirdKeyCard false true zeroTable 4).2.1.keyA j =
         zeroTable.keyA j ∧
       (authenticate thirdKeyCard false true zeroTable 4).2.1.keyB j =
         zeroTable.keyB j) ∧
     (true = true →
       (authenticate thirdKeyCard false true zeroTable 4).2.1.keyB 4 =
         zeroTable.keyB 4 ∧
       ∃ k, keysList.find? (thirdKeyCard.authOk 4) = some k ∧
         (authenticate thirdKeyCard false true zeroTable 4).2.1.keyA 4 = k) ∧
     (true = false →
       (authenticate thirdKeyCard false true zeroTable 4).2.1.keyA 4 =
         zeroTable.keyA 4 ∧
       ∃ k, keysList.find? (thirdKeyCard.authOk 4) = some k ∧
         (authenticate thirdKeyCard false true zeroTable 4).2.1.keyB 4 = k)) :=
  ⟨by decide,
   c10_key_cache_placement thirdKeyCard true zeroTable 4 (by decide)⟩

/-- Sixteen zero bytes: content of every mtDump block after the memset a
read pass starts from. -/
def zeros16 : List Nat := List.replicate 16 0

/-- Zero-initialised dump (mtDump after memset). -/
def zeroDump : Nat → List Nat := fun _ => zeros16

/-- Source: print_success_or_failure.  The block counter grows by 4 on a
non-failed tally and by 0 on a failed one. -/
def tally (bFailure : Bool) (c : Nat) : Nat := if bFailure then c else c + 4

/-- Bytes stored into the dump at a trailer block after a successful
trailer read: Key A and Key B from the working key table, access bits from
bytes 6..9 of the transport's read data. -/
def trailerFromRead (ktab : KeysTable) (b : Nat) (dat : List Nat) :
    List Nat :=
  ktab.keyA b ++ (dat.drop 6).take 4 ++ ktab.keyB b

/-- State threaded through the read pass: working key table, output dump,
per-sector failure flag, block counter. -/
structure RState where
  ktab : KeysTable
  dump : Nat → List Nat
  fail : Bool
  cnt : Nat

/-- The skip-first-guarded tally at a trailer block of the read pass: the
source skips the tally on the very first iteration, iBlock == uiBlocks. -/
def rTally (uiBlocks b : Nat) (st : RState) : RState :=
  if b = uiBlocks then st else { st with cnt := tally st.fail st.cnt }

/-- Source: the loop body of read_card, recursing over the remaining block
indices (highest first).  At a trailer block: tally unless this is the very
first iteration, reselect the tag if the failure flag is set (a failed
reselection ends the pass with C `return 1`, i.e. true), clear the flag,
authenticate (fatal on failure), read the trailer and on success store
keys/access bits; at a data block: read and store unless the failure flag
is set, a failed read setting the flag. -/
def readGo (T : Transport) (ukf ua : Bool) (uiBlocks : Nat) :
    List Nat → RState → Bool × RState × List Event
  | [], st => (true, { st with cnt := tally st.fail st.cnt }, [])
  | b :: bs, st =>
    if is_trailer_block b then
      let st1 := rTally uiBlocks b st
      if st1.fail && !T.selectOk then
        (true, st1, [Event.select])
      else
        let sel : List Event := if st1.fail then [Event.select] else []
        let st2 := { st1 with fail := false }
        let a := authenticate T ukf ua st2.ktab b
        if a.1 then
          let st3 := { st2 with ktab := a.2.1 }
          let st4 :=
            if T.readOk b then
              { st3 with dump := fun n =>
                  if n = b then trailerFromRead a.2.1 b (T.readData b)
                  else st3.dump n }
            else st3
          let r := readGo T ukf ua uiBlocks bs st4
          (r.1, r.2.1, sel ++ a.2.2 ++ [Event.read b] ++ r.2.2)
        else (false, { st2 with ktab := a.2.1 }, sel ++ a.2.2)
    else
      if st.fail then
        readGo T ukf ua uiBlocks bs st
      else
        let st2 :=
          if T.readOk b then
            { st with dump := fun n =>
                if n = b then T.readData b else st.dump n }
          else { st with fail := true }
        let r := readGo T ukf ua uiBlocks bs st2
        (r.1, r.2.1, Event.read b :: r.2.2)

/-- Source: read_card.  The card is read from block uiBlocks down to 0. -/
def read_card (T : Transport) (ukf ua : Bool) (uiBlocks : Nat)
    (ktab0 : KeysTable) (dump0 : Nat → List Nat) :
    Bool × RState × List Event :=
  readGo T ukf ua uiBlocks ((List.range (uiBlocks + 1)).reverse)
    { ktab := ktab0, dump := dump0, fail := false, cnt := 0 }

/-- Key A slice (bytes 0..5) of a stored dump block. -/
def dumpKeyA (x : List Nat) : List Nat := x.take 6

/-- Access-bits slice (bytes 6..9) of a stored dump block. -/
def dumpAccessBits (x : List Nat) : List Nat := (x.drop 6).take 4

/-- Key B slice (bytes 10..15) of a stored dump block. -/
def dumpKeyB (x : List Nat) : List Nat := (x.drop 10).take 6

/-- The 16 trailer bytes reconstructed for a trailer write: stored Key A,
then access bits, then Key B. -/
def trailerBytes (x : List Nat) : List Nat :=
  dumpKeyA x ++ dumpAccessBits x ++ dumpKeyB x

/-- State threaded through the write pass. -/
structure WState where
  ktab : KeysTable
  fail : Bool
  cnt : Nat

/-- Source: lines 265..289 of write_card, the per-block write action.  A
trailer block is always written (bytes reconstructed from the dump), a
failure setting the flag; block 0 is skipped unconditionally; a data block
is written only when the flag is clear, a failure setting the flag. -/
def writeBlockStep (T : Transport) (dump : Nat → List Nat) (b : Nat)
    (bFailure : Bool) : Bool × List Event :=
  if is_trailer_block b then
    (if T.writeOk b then bFailure else true,
     [Event.write b (trailerBytes (dump b))])
  else if b = 0 then (bFailure, [])
  else if bFailure then (bFailure, [])
  else (!T.writeOk b, [Event.write b (dump b)])

/-- The skip-first-guarded tally at a first block of the write pass: the
source compares uiBlock against uiBlocks (not against 0). -/
def wTally (uiBlocks b : Nat) (st : WState) : WState :=
  if b = uiBlocks then st else { st with cnt := tally st.fail st.cnt }

/-- Source: the loop body of write_card, recursing over the remaining block
indices (lowest first).  At a first block: tally unless uiBlock equals
uiBlocks (the source's skip-first guard), reselect on a set failure flag
(failure of the reselection returns false), clear the flag, authenticate
(fatal on failure); every block then goes through writeBlockStep. -/
def writeGo (T : Transport) (ukf ua : Bool) (uiBlocks : Nat)
    (dump : Nat → List Nat) :
    List Nat → WState → Bool × WState × List Event
  | [], st => (true, { st with cnt := tally st.fail st.cnt }, [])
  | b :: bs, st =>
    if is_first_block b then
      let st1 := wTally uiBlocks b st
      if st1.fail && !T.selectOk then
        (false, st1, [Event.select])
      else
        let sel : List Event := if st1.fail then [Event.select] else []
        let st2 := { st1 with fail := false }
        let a := authenticate T ukf ua st2.ktab b
        if a.1 then
          let ws := writeBlockStep T dump b false
          let r := writeGo T ukf ua uiBlocks dump bs
            { ktab := a.2.1, fail := ws.1, cnt := st2.cnt }
          (r.1, r.2.1, sel ++ a.2.2 ++ ws.2 ++ r.2.2)
        else (false, { st2 with ktab := a.2.1 }, sel ++ a.2.2)
    else
      let ws := writeBlockStep T dump b st.fail
      let r := writeGo T ukf ua uiBlocks dump bs { st with fail := ws.1 }
      (r.1, r.2.1, ws.2 ++ r.2.2)

/-- Source: write_card.  The card is written from block 0 up to uiBlocks. -/
def write_card (T : Transport) (ukf ua : Bool) (uiBlocks : Nat)
    (dump : Nat → List Nat) (ktab0 : KeysTable) :
    Bool × WState × List Event :=
  writeGo T ukf ua uiBlocks dump (List.range (uiBlocks + 1))
    { ktab := ktab0, fail := false, cnt := 0 }

/-- Transport where every command succeeds and every read returns a
per-block marker. -/
def allOk : Transport where
  selectOk := true
  authOk := fun _ _ => true
  readOk := fun _ => true
  readData := fun b => List.replicate 16 b
  writeOk := fun _ => true

/-- Transport identical to allOk except that reading block `bad` fails. -/
def failRead (bad : Nat) : Transport :=
  { allOk with readOk := fun b => decide (b ≠ bad) }

/-- Dump whose every block carries a distinguishable marker. -/
def markerDump : Nat → List Nat := fun b => List.replicate 16 b

/-- Events strictly after the first occurrence of e in a trace. -/
def afterEvent (e : Event) (evs : List Event) : List Event :=
  (evs.dropWhile (fun x => !(decide (x = e)))).drop 1

/-- Claim C3: with every transport command succeeding except the read of
data block 5, the full-card read issues a (failing) read of block 5, issues
no read of its sector siblings 4 and 6 after that failure, and still issues
a read of block 8 of the neighbouring sector. -/
theorem c3_sector_failure_containment :
    (failRead 5).readOk 5 = false ∧
    is_trailer_block 5 = false ∧
    Event.read 5 ∈
      (read_card (failRead 5) false true 63 zeroTable zeroDump).2.2 ∧
    Event.read 4 ∉ afterEvent (Event.read 5)
      (read_card (failRead 5) false true 63 zeroTable zeroDump).2.2 ∧
    Event.read 6 ∉ afterEvent (Event.read 5)
      (read_card (failRead 5) false true 63 zeroTable zeroDump).2.2 ∧
    Event.read 4 ∉
      (read_card (failRead 5) false true 63 zeroTable zeroDump).2.2 ∧
    Event.read 8 ∈
      (read_card (failRead 5) false true 63 zeroTable zeroDump).2.2 := by
  set_option maxRecDepth 10000 in decide

/-- Counterexample to claim C1: the read of trailer block 63 fails, yet
block 62 — a remaining lower-indexed block of the same sector — is still
attempted, so a trailer-read failure does not mark the sector failed. -/
theorem c1_counterexample :
    (failRead 63).readOk 63 = false ∧
    is_trailer_block 63 = true ∧
    sameSector 63 62 = true ∧
    Event.read 62 ∈
      (read_card (failRead 63) false true 63 zeroTable zeroDump).2.2 := by
  set_option maxRecDepth 10000 in decide

/-- Transport for the tag-removed read scenario: data block 62 fails, and
the subsequent anti-collision reselection fails too. -/
def removedTagReadT : Transport := { failRead 62 with selectOk := false }

/-- Transport for the tag-removed write scenario: data block 1 fails, and
the subsequent anti-collision reselection fails too. -/
def removedTagWriteT : Transport :=
  { allOk with selectOk := false, writeOk := fun b => decide (b ≠ 1) }

/-- Claim C2 (code bug): when the mid-operation reselection fails after a
contained sector failure, write_card reports failure (false) as the claim
says, but read_card executes the C statement `return 1`, i.e. it returns
true to its caller — which then persists the dump as a success. -/
theorem c2_tag_removed_result :
    removedTagReadT.selectOk = false ∧
    Event.select ∈
      (read_card removedTagReadT false true 63 zeroTable zeroDump).2.2 ∧
    (read_card removedTagReadT false true 63 zeroTable zeroDump).1 = true ∧
    removedTagWriteT.selectOk = false ∧
    Event.select ∈
      (write_card removedTagWriteT false true 63 markerDump zeroTable).2.2 ∧
    (write_card removedTagWriteT false true 63 markerDump zeroTable).1 =
      false := by
  set_option maxRecDepth 10000 in decide

/-- Claim C5 (code bug): on a 1K card with every authentication and write
succeeding, write_card's counter reaches 68, not 64, out of 64 blocks: the
skip-first guard compares the block index against uiBlocks instead of
against the loop's true first iteration, adding a seventeenth 4-unit
increment.  The read pass counts 64 under the same circumstances. -/
theorem c5_write_count :
    (write_card allOk false true 63 markerDump zeroTable).1 = true ∧
    (write_card allOk false true 63 markerDump zeroTable).2.1.cnt = 68 ∧
    (read_card allOk false true 63 zeroTable zeroDump).1 = true ∧
    (read_card allOk false true 63 zeroTable zeroDump).2.1.cnt = 64 := by
  set_option maxRecDepth 10000 in decide

/-- The brute-force loop emits only auth and select events. -/
lemma authAttempts_no_write (T : Transport) (b x : Nat) (d : List Nat) :
    ∀ ks : List (List Nat), Event.write x d ∉ (authAttempts T b ks).2 := by
  intro ks
  induction ks with
  | nil => simp [authAttempts]
  | cons k ks ih =>
    by_cases hk : T.authOk b k = true
    · simp [authAttempts, hk]
    · have hk' : T.authOk b k = false := by
        cases h2 : T.authOk b k
        · rfl
        · exact absurd h2 hk
      simp [authAttempts, hk', ih]

/-- authenticate emits only auth and select events. -/
lemma authenticate_no_write (T : Transport) (ukf ua : Bool)
    (ktab : KeysTable) (b x : Nat) (d : List Nat) :
    Event.write x d ∉ (authenticate T ukf ua ktab b).2.2 := by
  cases ukf with
  | true => simp [authenticate]
  | false =>
    have h := authAttempts_no_write T b x d keysList
    rcases hm : authAttempts T b keysList with ⟨o, evs⟩
    rw [hm] at h
    cases o with
    | none => simp only [authenticate, Bool.false_eq_true, if_false, hm]
              exact h
    | some k => simp only [authenticate, Bool.false_eq_true, if_false, hm]
                exact h

/-- The per-block write action never writes block 0. -/
lemma writeBlockStep_no_zero (T : Transport) (dump : Nat → List Nat)
    (b : Nat) (f : Bool) (d : List Nat) :
    Event.write 0 d ∉ (writeBlockStep T dump b f).2 := by
  intro hmem
  unfold writeBlockStep at hmem
  by_cases ht : is_trailer_block b = true
  · rw [if_pos ht] at hmem
    rw [List.mem_singleton, Event.write.injEq] at hmem
    rw [← hmem.1] at ht
    exact absurd ht (by decide)
  · rw [if_neg ht] at hmem
    by_cases hb : b = 0
    · rw [if_pos hb] at hmem; simp at hmem
    · rw [if_neg hb] at hmem
      cases f with
      | true => simp at hmem
      | false =>
        simp only [Bool.false_eq_true, if_false, List.mem_singleton,
          Event.write.injEq] at hmem
        exact hb hmem.1.symm

/-- A Bool that is not true is false. -/
lemma bool_of_not (c : Bool) (h : ¬c = true) : c = false := by
  cases c
  · rfl
  · exact absurd rfl h

/-- Branch equation of the write loop: first block, failed reselection. -/
lemma writeGo_cons_sel_fail (T : Transport) (ukf ua : Bool)
    (uiBlocks : Nat) (dump : Nat → List Nat) (b : Nat) (bs : List Nat)
    (st : WState) (h1 : is_first_block b = true)
    (h2 : ((wTally uiBlocks b st).fail && !T.selectOk) = true) :
    writeGo T ukf ua uiBlocks dump (b :: bs) st =
      (false, wTally uiBlocks b st, [Event.select]) := by
  simp only [writeGo]
  rw [if_pos h1, if_pos h2]

/-- Branch equation of the write loop: first block, fatal authentication
failure. -/
lemma writeGo_cons_auth_fail (T : Transport) (ukf ua : Bool)
    (uiBlocks : Nat) (dump : Nat → List Nat) (b : Nat) (bs : List Nat)
    (st : WState) (h1 : is_first_block b = true)
    (h2 : ((wTally uiBlocks b st).fail && !T.selectOk) = false)
    (h3 : (authenticate T ukf ua (wTally uiBlocks b st).ktab b).1 = false) :
    writeGo T ukf ua uiBlocks dump (b :: bs) st =
      (false,
       { ktab := (authenticate T ukf ua (wTally uiBlocks b st).ktab b).2.1,
         fail := false, cnt := (wTally uiBlocks b st).cnt },
       (if (wTally uiBlocks b st).fail then [Event.select] else []) ++
         (authenticate T ukf ua (wTally uiBlocks b st).ktab b).2.2) := by
  simp only [writeGo]
  rw [if_pos h1, if_neg (by simp [h2]), if_neg (by simp [h3])]

/-- Branch equation of the write loop: first block, authentication ok. -/
lemma writeGo_cons_auth_ok (T : Transport) (ukf ua : Bool)
    (uiBlocks : Nat) (dump : Nat → List Nat) (b : Nat) (bs : List Nat)
    (st : WState) (h1 : is_first_block b = true)
    (h2 : ((wTally uiBlocks b st).fail && !T.selectOk) = false)
    (h3 : (authenticate T ukf ua (wTally uiBlocks b st).ktab b).1 = true) :
    writeGo T ukf ua uiBlocks dump (b :: bs) st =
      ((writeGo T ukf ua uiBlocks dump bs
          { ktab := (authenticate T ukf ua (wTally uiBlocks b st).ktab b).2.1,
            fail := (writeBlockStep T dump b false).1,
            cnt := (wTally uiBlocks b st).cnt }).1,
       (writeGo T ukf ua uiBlocks dump bs
          { ktab := (authenticate T ukf ua (wTally uiBlocks b st).ktab b).2.1,
            fail := (writeBlockStep T dump b false).1,
            cnt := (wTally uiBlocks b st).cnt }).2.1,
       (if (wTally uiBlocks b st).fail then [Event.select] else []) ++
         (authenticate T ukf ua (wTally uiBlocks b st).ktab b).2.2 ++
         (writeBlockStep T dump b false).2 ++
         (writeGo T ukf ua uiBlocks dump bs
           { ktab :=
               (authenticate T ukf ua (wTally uiBlocks b st).ktab b).2.1,
             fail := (writeBlockStep T dump b false).1,
             cnt := (wTally uiBlocks b st).cnt }).2.2) := by
  simp only [writeGo]
  rw [if_pos h1, if_neg (by simp [h2]), if_pos h3]

/-- Branch equation of the write loop: not a first block. -/
lemma writeGo_cons_plain (T : Transport) (ukf ua : Bool)
    (uiBlocks : Nat) (dump : Nat → List Nat) (b : Nat) (bs : List Nat)
    (st : WState) (h1 : is_first_block b = false) :
    writeGo T ukf ua uiBlocks dump (b :: bs) st =
      ((writeGo T ukf ua uiBlocks dump bs
          { st with fail := (writeBlockStep T dump b st.fail).1 }).1,
       (writeGo T ukf ua uiBlocks dump bs
          { st with fail := (writeBlockStep T dump b st.fail).1 }).2.1,
       (writeBlockStep T dump b st.fail).2 ++
         (writeGo T ukf ua uiBlocks dump bs
           { st with fail := (writeBlockStep T dump b st.fail).1 }).2.2) := by
  simp only [writeGo]
  rw [if_neg (by simp [h1])]

/-- No iteration of the write loop ever writes block 0. -/
lemma writeGo_no_zero_write (T : Transport) (ukf ua : Bool)
    (uiBlocks : Nat) (dump : Nat → List Nat) (d : List Nat) :
    ∀ (bs : List Nat) (st : WState),
      Event.write 0 d ∉ (writeGo T ukf ua uiBlocks dump bs st).2.2 := by
  intro bs
  induction bs with
  | nil => intro st; simp [writeGo]
  | cons b bs ih =>
    intro st
    by_cases h1 : is_first_block b = true
    · by_cases h2 : ((wTally uiBlocks b st).fail && !T.selectOk) = true
      · rw [writeGo_cons_sel_fail T ukf ua uiBlocks dump b bs st h1 h2]
        simp
      · have h2' := bool_of_not _ h2
        by_cases h3 :
            (authenticate T ukf ua (wTally uiBlocks b st).ktab b).1 = true
        · rw [writeGo_cons_auth_ok T ukf ua uiBlocks dump b bs st h1 h2' h3]
          intro hmem
          simp only [List.mem_append] at hmem
          rcases hmem with ((hsel | hauth) | hws) | hrec
          · revert hsel; split <;> simp
          · exact authenticate_no_write T ukf ua _ b 0 d hauth
          · exact writeBlockStep_no_zero T dump b false d hws
          · exact ih _ hrec
        · have h3' := bool_of_not _ h3
          rw [writeGo_cons_auth_fail T ukf ua uiBlocks dump b bs st h1 h2' h3']
          intro hmem
          simp only [List.mem_append] at hmem
          rcases hmem with hsel | hauth
          · revert hsel; split <;> simp
          · exact authenticate_no_write T ukf ua _ b 0 d hauth
    · have h1' := bool_of_not _ h1
      rw [writeGo_cons_plain T ukf ua uiBlocks dump b bs st h1']
      intro hmem
      simp only [List.mem_append] at hmem
      rcases hmem with hws | hrec
      · exact writeBlockStep_no_zero T dump b st.fail d hws
      · exact ih _ hrec

/-- Claim C9: the full-card write never issues a transport write command for
block 0 (the manufacturer block), for every transport behaviour, every dump
content, every key table and every card size. -/
theorem c9_block_zero_never_written (T : Transport) (ukf ua : Bool)
    (uiBlocks : Nat) (dump : Nat → List Nat) (ktab0 : KeysTable)
    (d : List Nat) :
    Event.write 0 d ∉ (write_card T ukf ua uiBlocks dump ktab0).2.2 :=
  writeGo_no_zero_write T ukf ua uiBlocks dump d _ _

/-- Number of write commands for block t in a trace. -/
def writesAt (t : Nat) (evs : List Event) : Nat :=
  evs.countP (fun e =>
    match e with
    | Event.write b _ => b == t
    | _ => false)

/-- writesAt distributes over trace concatenation. -/
lemma writesAt_append (t : Nat) (l1 l2 : List Event) :
    writesAt t (l1 ++ l2) = writesAt t l1 + writesAt t l2 :=
  List.countP_append _ _ _

/-- The per-block write action emits exactly one write for a trailer block
t when processing t itself — whatever the failure flag — and none when
processing any other block. -/
lemma writeBlockStep_writesAt (T : Transport) (dump : Nat → List Nat)
    (b t : Nat) (f : Bool) (ht : is_trailer_block t = true) :
    writesAt t (writeBlockStep T dump b f).2 = if b = t then 1 else 0 := by
  by_cases htb : is_trailer_block b = true
  · unfold writeBlockStep writesAt
    rw [if_pos htb]
    by_cases hbt : b = t <;> simp [hbt]
  · have hbt : ¬b = t := fun he => by rw [he] at htb; exact htb ht
    unfold writeBlockStep writesAt
    rw [if_neg htb]
    split_ifs with hb0 hf <;> simp [hbt]

/-- Transport with a prescribed write behaviour whose selections,
authentications and reads all succeed. -/
def permissive (w : Nat → Bool) : Transport where
  selectOk := true
  authOk := fun _ _ => true
  readOk := fun _ => true
  readData := fun b => List.replicate 16 b
  writeOk := w

/-- The first candidate key (the factory default). -/
def keyFF : List Nat := [0xff, 0xff, 0xff, 0xff, 0xff, 0xff]

/-- Against a permissive transport, brute-force authentication accepts the
first candidate immediately. -/
lemma authenticate_permissive (w : Nat → Bool) (ua : Bool)
    (ktab : KeysTable) (b : Nat) :
    authenticate (permissive w) false ua ktab b =
      (true, updTable ktab ua b keyFF, [Event.auth b keyFF]) := rfl

/-- Against a permissive transport, every block list iteration writes each
trailer block t exactly as often as t occurs in the list. -/
lemma writeGo_trailer_count (w : Nat → Bool) (ua : Bool) (uiBlocks : Nat)
    (dump : Nat → List Nat) (t : Nat) (ht : is_trailer_block t = true) :
    ∀ (bs : List Nat) (st : WState),
      writesAt t (writeGo (permissive w) false ua uiBlocks dump bs st).2.2 =
        List.count t bs := by
  intro bs
  induction bs with
  | nil => intro st; simp [writeGo, writesAt]
  | cons b bs ih =>
    intro st
    have hsel : ((wTally uiBlocks b st).fail && !(permissive w).selectOk)
        = false := by simp [permissive]
    by_cases h1 : is_first_block b = true
    · rw [writeGo_cons_auth_ok (permissive w) false ua uiBlocks dump b bs st
        h1 hsel (by rw [authenticate_permissive])]
      rw [writesAt_append, writesAt_append, writesAt_append]
      rw [writeBlockStep_writesAt _ _ _ _ _ ht, ih]
      have hselev :
          writesAt t (if (wTally uiBlocks b st).fail then [Event.select]
            else []) = 0 := by
        split <;> simp [writesAt]
      have hauthev : writesAt t
          (authenticate (permissive w) false ua
            (wTally uiBlocks b st).ktab b).2.2 = 0 := by
        rw [authenticate_permissive]; simp [writesAt]
      rw [hselev, hauthev, List.count_cons]
      by_cases hbt : b = t <;> simp [hbt] <;> omega
    · rw [writeGo_cons_plain (permissive w) false ua uiBlocks dump b bs st
        (bool_of_not _ h1)]
      rw [writesAt_append, writeBlockStep_writesAt _ _ _ _ _ ht, ih,
        List.count_cons]
      by_cases hbt : b = t <;> simp [hbt] <;> omega

/-- Claim C7: in the write pass, a trailer block's bytes are reconstructed
from the dump's Key A, access bits and Key B and the trailer write is
attempted regardless of the failure flag, a failed trailer write setting
the flag; a non-trailer, non-zero block is written only when the flag is
clear (a set flag suppresses it), a failed data write setting the flag;
and over a whole 1K write pass with working selection and authentication,
each trailer is written exactly once. -/
theorem c7_write_block_policy :
    (∀ (T : Transport) (dump : Nat → List Nat) (b : Nat) (f : Bool),
      is_trailer_block b = true →
      writeBlockStep T dump b f =
        (if T.writeOk b then f else true,
         [Event.write b (dumpKeyA (dump b) ++ dumpAccessBits (dump b) ++
           dumpKeyB (dump b))])) ∧
    (∀ (T : Transport) (dump : Nat → List Nat) (b : Nat),
      is_trailer_block b = false → b ≠ 0 →
      writeBlockStep T dump b true = (true, [])) ∧
    (∀ (T : Transport) (dump : Nat → List Nat) (b : Nat),
      is_trailer_block b = false → b ≠ 0 →
      writeBlockStep T dump b false =
        (!T.writeOk b, [Event.write b (dump b)])) ∧
    (∀ (w : Nat → Bool) (ua : Bool) (dump : Nat → List Nat)
       (ktab0 : KeysTable) (t : Nat),
      is_trailer_block t = true → t < 64 →
      writesAt t (write_card (permissive w) false ua 63 dump ktab0).2.2
        = 1) := by
  refine ⟨?_, ?_, ?_, ?_⟩
  · intro T dump b f h
    unfold writeBlockStep
    rw [if_pos h]
    rfl
  · intro T dump b hnt hb0
    unfold writeBlockStep
    rw [if_neg (by simp [hnt]), if_neg hb0]
    simp
  · intro T dump b hnt hb0
    unfold writeBlockStep
    rw [if_neg (by simp [hnt]), if_neg hb0]
    simp
  · intro w ua dump ktab0 t ht hlt
    unfold write_card
    rw [writeGo_trailer_count w ua 63 dump t ht]
    exact List.count_eq_one_of_mem (List.nodup_range 64)
      (List.mem_range.mpr hlt)

/-- Witness for C7 at trailer block 7, data block 5 and a full permissive
pass. -/
theorem c7_write_block_policy_witness :
    (is_trailer_block 7 = true ∧
     writeBlockStep allOk markerDump 7 true =
       (if allOk.writeOk 7 then true else true,
        [Event.write 7 (dumpKeyA (markerDump 7) ++
          dumpAccessBits (markerDump 7) ++ dumpKeyB (markerDump 7))])) ∧
    (is_trailer_block 5 = false ∧ (5 : Nat) ≠ 0 ∧
     writeBlockStep allOk markerDump 5 true = (true, [])) ∧
    (is_trailer_block 5 = false ∧ (5 : Nat) ≠ 0 ∧
     writeBlockStep allOk markerDump 5 false =
       (!allOk.writeOk 5, [Event.write 5 (markerDump 5)])) ∧
    (is_trailer_block 7 = true ∧ (7 : Nat) < 64 ∧
     writesAt 7 (write_card (permissive (fun _ => true)) false true 63
       markerDump zeroTable).2.2 = 1) :=
  ⟨⟨by decide, c7_write_block_policy.1 allOk markerDump 7 true (by decide)⟩,
   ⟨by decide, by decide,
    c7_write_block_policy.2.1 allOk markerDump 5 (by decide) (by decide)⟩,
   ⟨by decide, by decide,
    c7_write_block_policy.2.2.1 allOk markerDump 5 (by decide) (by decide)⟩,
   ⟨by decide, by decide,
    c7_write_block_policy.2.2.2 (fun _ => true) true markerDump zeroTable 7
      (by decide) (by decide)⟩⟩

/-- Source: one memcpy of 16 bytes from src at srcOff into dst at dstOff. -/
def copy16 (dst : Nat → Nat) (dstOff : Nat) (src : Nat → Nat)
    (srcOff : Nat) : Nat → Nat :=
  fun x => if dstOff ≤ x ∧ x < dstOff + 16 then src (srcOff + (x - dstOff))
           else dst x

/-- Source: the inner block loop of mifare_classic_extract_payload — the
three data blocks of one sector are copied to consecutive payload
positions. -/
def extractInner (abDump : Nat → Nat) (s : Nat)
    (acc : (Nat → Nat) × Nat) : (Nat → Nat) × Nat :=
  (List.range 3).foldl
    (fun acc2 bI =>
      (copy16 acc2.1 acc2.2 abDump (s * 16 * 4 + bI * 16), acc2.2 + 16))
    acc

/-- Source: mifare_classic_extract_payload.  Sectors 1 to 15 are walked in
ascending order, their data blocks copied to the payload buffer. -/
def mifare_classic_extract_payload (abDump pbPayload : Nat → Nat) :
    Nat → Nat :=
  ((List.range' 1 15).foldl (fun acc s => extractInner abDump s acc)
    (pbPayload, 0)).1

/-- Payload cursor advances by 48 per sector. -/
lemma extractInner_snd (abDump : Nat → Nat) (s : Nat)
    (acc : (Nat → Nat) × Nat) :
    (extractInner abDump s acc).2 = acc.2 + 48 := rfl

/-- Pointwise effect of one sector's copies. -/
lemma extractInner_fst_apply (abDump : Nat → Nat) (s : Nat)
    (p : Nat → Nat) (k x : Nat) :
    (extractInner abDump s (p, k)).1 x =
      if k ≤ x ∧ x < k + 48 then abDump (s * 16 * 4 + (x - k)) else p x := by
  show copy16 (copy16 (copy16 p k abDump (s * 16 * 4 + 0 * 16)) (k + 16)
      abDump (s * 16 * 4 + 1 * 16)) (k + 16 + 16) abDump
      (s * 16 * 4 + 2 * 16) x = _
  unfold copy16
  split_ifs <;> first
    | rfl
    | (congr 1; omega)
    | omega

/-- Pointwise effect of one sector's copies, accumulator form. -/
lemma extractInner_fst_acc (abDump : Nat → Nat) (s : Nat)
    (acc : (Nat → Nat) × Nat) (x : Nat) :
    (extractInner abDump s acc).1 x =
      if acc.2 ≤ x ∧ x < acc.2 + 48 then
        abDump (s * 16 * 4 + (x - acc.2))
      else acc.1 x :=
  extractInner_fst_apply abDump s acc.1 acc.2 x

/-- The payload cursor after folding a block of sectors. -/
lemma extract_fold_snd (abDump : Nat → Nat) :
    ∀ (l : List Nat) (acc : (Nat → Nat) × Nat),
      (l.foldl (fun acc2 s => extractInner abDump s acc2) acc).2 =
        acc.2 + 48 * l.length := by
  intro l
  induction l with
  | nil => intro acc; simp
  | cons s l ihl =>
    intro acc
    rw [List.foldl_cons, ihl, extractInner_snd]
    simp only [List.length_cons]
    omega

/-- Pointwise characterisation of the whole sector loop. -/
lemma extract_fold_apply (abDump p0 : Nat → Nat) :
    ∀ (n : Nat) (x : Nat),
      ((List.range' 1 n).foldl (fun acc s => extractInner abDump s acc)
        (p0, 0)).1 x =
      if x < 48 * n then abDump (64 * (1 + x / 48) + x % 48) else p0 x := by
  intro n
  induction n with
  | zero => intro x; simp [List.range']
  | succ m ih =>
    intro x
    have h2 : ((List.range' 1 m).foldl
        (fun acc s => extractInner abDump s acc) (p0, 0)).2 = 48 * m := by
      rw [extract_fold_snd]
      simp [List.length_range']
    rw [List.range'_concat, List.foldl_append, List.foldl_cons,
      List.foldl_nil, extractInner_fst_acc, h2]
    by_cases hx : 48 * m ≤ x ∧ x < 48 * m + 48
    · rw [if_pos hx, if_pos (show x < 48 * (m + 1) by omega)]
      congr 1
      omega
    · rw [if_neg hx, ih x]
      by_cases hx2 : x < 48 * m
      · rw [if_pos hx2, if_pos (show x < 48 * (m + 1) by omega)]
      · rw [if_neg hx2, if_neg (show ¬x < 48 * (m + 1) by omega)]

/-- Global block index of the m-th 16-byte chunk of the payload: the data
blocks of sectors 1..15 in ascending order, three per sector. -/
def payloadSrcBlock (j : Nat) : Nat := 4 * (1 + j / 48) + (j % 48) / 16

/-- Claim C6: for every dump buffer and every initial payload buffer, byte
j of the extractor's output, for j < 720, is exactly byte j % 16 of data
block payloadSrcBlock j — the blocks of sectors 1..15 in ascending block
order, never a trailer block, never a block of sector 0 — and the source
byte position is strictly increasing in j (the output is the
concatenation). -/
theorem c6_extract_payload (abDump pbPayload : Nat → Nat) (j : Nat)
    (h : j < 720) :
    mifare_classic_extract_payload abDump pbPayload j =
      abDump (16 * payloadSrcBlock j + j % 16) ∧
    is_trailer_block (payloadSrcBlock j) = false ∧
    1 ≤ payloadSrcBlock j / 4 ∧
    payloadSrcBlock j / 4 ≤ 15 ∧
    payloadSrcBlock j < 64 ∧
    (∀ j2 : Nat, j2 < j →
      16 * payloadSrcBlock j2 + j2 % 16 <
        16 * payloadSrcBlock j + j % 16) := by
  have hb : payloadSrcBlock j < 128 := by unfold payloadSrcBlock; omega
  refine ⟨?_, ?_, ?_, ?_, ?_, ?_⟩
  · unfold mifare_classic_extract_payload
    rw [extract_fold_apply abDump pbPayload 15 j, if_pos (by omega)]
    unfold payloadSrcBlock
    congr 1
    omega
  · unfold is_trailer_block
    rw [if_pos hb]
    have : (payloadSrcBlock j + 1) % 4 ≠ 0 := by unfold payloadSrcBlock; omega
    simpa using this
  · unfold payloadSrcBlock; omega
  · unfold payloadSrcBlock; omega
  · unfold payloadSrcBlock; omega
  · intro j2 hj2
    unfold payloadSrcBlock
    omega

/-- Witness for C6 at j = 100 with an identity dump. -/
theorem c6_extract_payload_witness :
    (100 : Nat) < 720 ∧
    (mifare_classic_extract_payload (fun i => i) (fun _ => 0) 100 =
       (fun i : Nat => i) (16 * payloadSrcBlock 100 + 100 % 16) ∧
     is_trailer_block (payloadSrcBlock 100) = false ∧
     1 ≤ payloadSrcBlock 100 / 4 ∧
     payloadSrcBlock 100 / 4 ≤ 15 ∧
     payloadSrcBlock 100 < 64 ∧
     (∀ j2 : Nat, j2 < 100 →
       16 * payloadSrcBlock j2 + j2 % 16 <
         16 * payloadSrcBlock 100 + 100 % 16)) :=
  ⟨by decide, c6_extract_payload (fun i => i) (fun _ => 0) 100 (by decide)⟩

/-- rTally never touches the dump. -/
lemma rTally_dump (uiBlocks b : Nat) (st : RState) :
    (rTally uiBlocks b st).dump = st.dump := by
  unfold rTally; split <;> rfl

/-- rTally never touches the failure flag. -/
lemma rTally_fail (uiBlocks b : Nat) (st : RState) :
    (rTally uiBlocks b st).fail = st.fail := by
  unfold rTally; split <;> rfl

/-- The brute-force loop emits no read events. -/
lemma authAttempts_no_read (T : Transport) (b x : Nat) :
    ∀ ks : List (List Nat), Event.read x ∉ (authAttempts T b ks).2 := by
  intro ks
  induction ks with
  | nil => simp [authAttempts]
  | cons k ks ih =>
    by_cases hk : T.authOk b k = true
    · simp [authAttempts, hk]
    · have hk' : T.authOk b k = false := bool_of_not _ hk
      simp [authAttempts, hk', ih]

/-- authenticate emits no read events. -/
lemma authenticate_no_read (T : Transport) (ukf ua : Bool)
    (ktab : KeysTable) (b x : Nat) :
    Event.read x ∉ (authenticate T ukf ua ktab b).2.2 := by
  cases ukf with
  | true => simp [authenticate]
  | false =>
    have h := authAttempts_no_read T b x keysList
    rcases hm : authAttempts T b keysList with ⟨o, evs⟩
    rw [hm] at h
    cases o with
    | none => simp only [authenticate, Bool.false_eq_true, if_false, hm]
              exact h
    | some k => simp only [authenticate, Bool.false_eq_true, if_false, hm]
                exact h

/-- With an always-accepting transport authentication oracle, authenticate
succeeds in either mode. -/
lemma authenticate_true_of_authOk (T : Transport) (ukf ua : Bool)
    (ktab : KeysTable) (b : Nat)
    (hauth : ∀ (c : Nat) (k : List Nat), T.authOk c k = true) :
    (authenticate T ukf ua ktab b).1 = true := by
  cases ukf with
  | true => simp [authenticate, hauth]
  | false => simp [authenticate, authAttempts, keysList, hauth]

/-- Branch equation of the read loop: trailer block, no abort, successful
trailer read. -/
lemma readGo_cons_trailer_read_ok (T : Transport) (ukf ua : Bool)
    (uiBlocks : Nat) (b : Nat) (bs : List Nat) (st : RState)
    (h1 : is_trailer_block b = true)
    (h2 : ((rTally uiBlocks b st).fail && !T.selectOk) = false)
    (h3 : (authenticate T ukf ua (rTally uiBlocks b st).ktab b).1 = true)
    (h4 : T.readOk b = true) :
    readGo T ukf ua uiBlocks (b :: bs) st =
      ((readGo T ukf ua uiBlocks bs
          { ktab := (authenticate T ukf ua (rTally uiBlocks b st).ktab b).2.1,
            dump := fun n =>
              if n = b then
                trailerFromRead
                  (authenticate T ukf ua (rTally uiBlocks b st).ktab b).2.1
                  b (T.readData b)
              else (rTally uiBlocks b st).dump n,
            fail := false, cnt := (rTally uiBlocks b st).cnt }).1,
       (readGo T ukf ua uiBlocks bs
          { ktab := (authenticate T ukf ua (rTally uiBlocks b st).ktab b).2.1,
            dump := fun n =>
              if n = b then
                trailerFromRead
                  (authenticate T ukf ua (rTally uiBlocks b st).ktab b).2.1
                  b (T.readData b)
              else (rTally uiBlocks b st).dump n,
            fail := false, cnt := (rTally uiBlocks b st).cnt }).2.1,
       (if (rTally uiBlocks b st).fail then [Event.select] else []) ++
         (authenticate T ukf ua (rTally uiBlocks b st).ktab b).2.2 ++
         [Event.read b] ++
         (readGo T ukf ua uiBlocks bs
           { ktab :=
               (authenticate T ukf ua (rTally uiBlocks b st).ktab b).2.1,
             dump := fun n =>
               if n = b then
                 trailerFromRead
                   (authenticate T ukf ua (rTally uiBlocks b st).ktab b).2.1
                   b (T.readData b)
               else (rTally uiBlocks b st).dump n,
             fail := false, cnt := (rTally uiBlocks b st).cnt }).2.2) := by
  simp only [readGo]
  rw [if_pos h1, if_neg (by simp [h2]), if_pos h3, if_pos h4]

/-- Branch equation of the read loop: trailer block, no abort, failed
trailer read — the failure flag is NOT set and the dump is untouched. -/
lemma readGo_cons_trailer_read_fail (T : Transport) (ukf ua : Bool)
    (uiBlocks : Nat) (b : Nat) (bs : List Nat) (st : RState)
    (h1 : is_trailer_block b = true)
    (h2 : ((rTally uiBlocks b st).fail && !T.selectOk) = false)
    (h3 : (authenticate T ukf ua (rTally uiBlocks b st).ktab b).1 = true)
    (h4 : T.readOk b = false) :
    readGo T ukf ua uiBlocks (b :: bs) st =
      ((readGo T ukf ua uiBlocks bs
          { ktab := (authenticate T ukf ua (rTally uiBlocks b st).ktab b).2.1,
            dump := (rTally uiBlocks b st).dump,
            fail := false, cnt := (rTally uiBlocks b st).cnt }).1,
       (readGo T ukf ua uiBlocks bs
          { ktab := (authenticate T ukf ua (rTally uiBlocks b st).ktab b).2.1,
            dump := (rTally uiBlocks b st).dump,
            fail := false, cnt := (rTally uiBlocks b st).cnt }).2.1,
       (if (rTally uiBlocks b st).fail then [Event.select] else []) ++
         (authenticate T ukf ua (rTally uiBlocks b st).ktab b).2.2 ++
         [Event.read b] ++
         (readGo T ukf ua uiBlocks bs
           { ktab :=
               (authenticate T ukf ua (rTally uiBlocks b st).ktab b).2.1,
             dump := (rTally uiBlocks b st).dump,
             fail := false, cnt := (rTally uiBlocks b st).cnt }).2.2) := by
  simp only [readGo]
  rw [if_pos h1, if_neg (by simp [h2]), if_pos h3, if_neg (by simp [h4])]

/-- Branch equation of the read loop: data block skipped because the sector
failure flag is set — no transport command, no state change. -/
lemma readGo_cons_data_skip (T : Transport) (ukf ua : Bool)
    (uiBlocks : Nat) (b : Nat) (bs : List Nat) (st : RState)
    (h1 : is_trailer_block b = false) (h2 : st.fail = true) :
    readGo T ukf ua uiBlocks (b :: bs) st =
      readGo T ukf ua uiBlocks bs st := by
  simp only [readGo]
  rw [if_neg (by simp [h1]), if_pos h2]

/-- Branch equation of the read loop: data block read successfully. -/
lemma readGo_cons_data_read_ok (T : Transport) (ukf ua : Bool)
    (uiBlocks : Nat) (b : Nat) (bs : List Nat) (st : RState)
    (h1 : is_trailer_block b = false) (h2 : st.fail = false)
    (h3 : T.readOk b = true) :
    readGo T ukf ua uiBlocks (b :: bs) st =
      ((readGo T ukf ua uiBlocks bs
          { st with dump := fun n =>
              if n = b then T.readData b else st.dump n }).1,
       (readGo T ukf ua uiBlocks bs
          { st with dump := fun n =>
              if n = b then T.readData b else st.dump n }).2.1,
       Event.read b ::
         (readGo T ukf ua uiBlocks bs
           { st with dump := fun n =>
               if n = b then T.readData b else st.dump n }).2.2) := by
  simp only [readGo]
  rw [if_neg (by simp [h1]), if_neg (by simp [h2]), if_pos h3]

/-- Branch equation of the read loop: data block read fails — the sector
failure flag is set and the dump slot keeps its prior content. -/
lemma readGo_cons_data_read_fail (T : Transport) (ukf ua : Bool)
    (uiBlocks : Nat) (b : Nat) (bs : List Nat) (st : RState)
    (h1 : is_trailer_block b = false) (h2 : st.fail = false)
    (h3 : T.readOk b = false) :
    readGo T ukf ua uiBlocks (b :: bs) st =
      ((readGo T ukf ua uiBlocks bs { st with fail := true }).1,
       (readGo T ukf ua uiBlocks bs { st with fail := true }).2.1,
       Event.read b ::
         (readGo T ukf ua uiBlocks bs { st with fail := true }).2.2) := by
  simp only [readGo]
  rw [if_neg (by simp [h1]), if_neg (by simp [h2]), if_neg (by simp [h3])]

/-- One read-loop iteration for a block other than x issues no read of x
and leaves dump slot x unchanged, whatever the branch taken, provided the
loop afterwards has that property for every state. -/
lemma readGo_step_frame (T : Transport) (ukf ua : Bool) (uiBlocks : Nat)
    (hsel : T.selectOk = true)
    (hauth : ∀ (c : Nat) (k : List Nat), T.authOk c k = true)
    (b x : Nat) (hbx : x ≠ b) (bs : List Nat)
    (hQ : ∀ st2 : RState,
      Event.read x ∉ (readGo T ukf ua uiBlocks bs st2).2.2 ∧
      (readGo T ukf ua uiBlocks bs st2).2.1.dump x = st2.dump x)
    (st : RState) :
    Event.read x ∉ (readGo T ukf ua uiBlocks (b :: bs) st).2.2 ∧
    (readGo T ukf ua uiBlocks (b :: bs) st).2.1.dump x = st.dump x := by
  have h2 : ((rTally uiBlocks b st).fail && !T.selectOk) = false := by
    rw [hsel]; simp
  have h3 : (authenticate T ukf ua (rTally uiBlocks b st).ktab b).1 = true :=
    authenticate_true_of_authOk T ukf ua _ b hauth
  by_cases h1 : is_trailer_block b = true
  · by_cases h4 : T.readOk b = true
    · rw [readGo_cons_trailer_read_ok T ukf ua uiBlocks b bs st h1 h2 h3 h4]
      constructor
      · intro hmem
        simp only [List.mem_append, List.mem_singleton] at hmem
        rcases hmem with ((hs2 | ha2) | hr2) | hrec
        · revert hs2; split <;> simp
        · exact authenticate_no_read T ukf ua _ b x ha2
        · rw [Event.read.injEq] at hr2; exact hbx hr2
        · exact (hQ _).1 hrec
      · rw [(hQ _).2]; simp [hbx, rTally_dump]
    · rw [readGo_cons_trailer_read_fail T ukf ua uiBlocks b bs st h1 h2 h3
        (bool_of_not _ h4)]
      constructor
      · intro hmem
        simp only [List.mem_append, List.mem_singleton] at hmem
        rcases hmem with ((hs2 | ha2) | hr2) | hrec
        · revert hs2; split <;> simp
        · exact authenticate_no_read T ukf ua _ b x ha2
        · rw [Event.read.injEq] at hr2; exact hbx hr2
        · exact (hQ _).1 hrec
      · rw [(hQ _).2]; simp [rTally_dump]
  · have h1' := bool_of_not _ h1
    by_cases hf : st.fail = true
    · rw [readGo_cons_data_skip T ukf ua uiBlocks b bs st h1' hf]
      exact hQ st
    · have hf' := bool_of_not _ hf
      by_cases h4 : T.readOk b = true
      · rw [readGo_cons_data_read_ok T ukf ua uiBlocks b bs st h1' hf' h4]
        constructor
        · intro hmem
          simp only [List.mem_cons] at hmem
          rcases hmem with he | hmem2
          · rw [Event.read.injEq] at he; exact hbx he
          · exact (hQ _).1 hmem2
        · rw [(hQ _).2]; simp [hbx]
      · rw [readGo_cons_data_read_fail T ukf ua uiBlocks b bs st h1' hf'
          (bool_of_not _ h4)]
        constructor
        · intro hmem
          simp only [List.mem_cons] at hmem
          rcases hmem with he | hmem2
          · rw [Event.read.injEq] at he; exact hbx he
          · exact (hQ _).1 hmem2
        · exact (hQ _).2

/-- Blocks outside the remaining list are never read and their dump slots
never change. -/
lemma readGo_frame (T : Transport) (ukf ua : Bool) (uiBlocks : Nat)
    (hsel : T.selectOk = true)
    (hauth : ∀ (c : Nat) (k : List Nat), T.authOk c k = true) :
    ∀ (bs : List Nat) (st : RState) (x : Nat), x ∉ bs →
      Event.read x ∉ (readGo T ukf ua uiBlocks bs st).2.2 ∧
      (readGo T ukf ua uiBlocks bs st).2.1.dump x = st.dump x := by
  intro bs
  induction bs with
  | nil => intro st x _; exact ⟨by simp [readGo], rfl⟩
  | cons b bs ih =>
    intro st x hx
    have hxb : x ≠ b := fun he => hx (he ▸ List.mem_cons_self b bs)
    exact readGo_step_frame T ukf ua uiBlocks hsel hauth b x hxb bs
      (fun st2 => ih st2 x (fun hh => hx (List.mem_cons_of_mem b hh))) st

/-- With working reselection and authentication the read loop always runs
to completion and returns true. -/
lemma readGo_result_true (T : Transport) (ukf ua : Bool) (uiBlocks : Nat)
    (hsel : T.selectOk = true)
    (hauth : ∀ (c : Nat) (k : List Nat), T.authOk c k = true) :
    ∀ (bs : List Nat) (st : RState),
      (readGo T ukf ua uiBlocks bs st).1 = true := by
  intro bs
  induction bs with
  | nil => intro st; rfl
  | cons b bs ih =>
    intro st
    have h2 : ((rTally uiBlocks b st).fail && !T.selectOk) = false := by
      rw [hsel]; simp
    have h3 : (authenticate T ukf ua (rTally uiBlocks b st).ktab b).1 =
        true := authenticate_true_of_authOk T ukf ua _ b hauth
    by_cases h1 : is_trailer_block b = true
    · by_cases h4 : T.readOk b = true
      · rw [readGo_cons_trailer_read_ok T ukf ua uiBlocks b bs st h1 h2 h3 h4]
        exact ih _
      · rw [readGo_cons_trailer_read_fail T ukf ua uiBlocks b bs st h1 h2 h3
          (bool_of_not _ h4)]
        exact ih _
    · have h1' := bool_of_not _ h1
      by_cases hf : st.fail = true
      · rw [readGo_cons_data_skip T ukf ua uiBlocks b bs st h1' hf]
        exact ih _
      · have hf' := bool_of_not _ hf
        by_cases h4 : T.readOk b = true
        · rw [readGo_cons_data_read_ok T ukf ua uiBlocks b bs st h1' hf' h4]
          exact ih _
        · rw [readGo_cons_data_read_fail T ukf ua uiBlocks b bs st h1' hf'
            (bool_of_not _ h4)]
          exact ih _

/-- With working reselection and authentication every trailer block of the
remaining list is attempted: sector failures never suppress a trailer read,
so the traversal reaches every sector. -/
lemma readGo_trailer_attempted (T : Transport) (ukf ua : Bool)
    (uiBlocks : Nat) (hsel : T.selectOk = true)
    (hauth : ∀ (c : Nat) (k : List Nat), T.authOk c k = true) :
    ∀ (bs : List Nat) (st : RState) (t : Nat), t ∈ bs →
      is_trailer_block t = true →
      Event.read t ∈ (readGo T ukf ua uiBlocks bs st).2.2 := by
  intro bs
  induction bs with
  | nil => intro st t ht _; exact absurd ht (List.not_mem_nil t)
  | cons b bs ih =>
    intro st t ht httr
    have h2 : ((rTally uiBlocks b st).fail && !T.selectOk) = false := by
      rw [hsel]; simp
    have h3 : (authenticate T ukf ua (rTally uiBlocks b st).ktab b).1 =
        true := authenticate_true_of_authOk T ukf ua _ b hauth
    by_cases h1 : is_trailer_block b = true
    · by_cases h4 : T.readOk b = true
      · rw [readGo_cons_trailer_read_ok T ukf ua uiBlocks b bs st h1 h2 h3 h4]
        rcases List.mem_cons.mp ht with he | hm
        · subst he; simp [List.mem_append]
        · simp only [List.mem_append]
          exact Or.inr (ih _ t hm httr)
      · rw [readGo_cons_trailer_read_fail T ukf ua uiBlocks b bs st h1 h2 h3
          (bool_of_not _ h4)]
        rcases List.mem_cons.mp ht with he | hm
        · subst he; simp [List.mem_append]
        · simp only [List.mem_append]
          exact Or.inr (ih _ t hm httr)
    · have htb : t ≠ b := fun he => by rw [← he] at h1; exact h1 httr
      have hm : t ∈ bs := by
        rcases List.mem_cons.mp ht with he | hm
        · exact absurd he htb
        · exact hm
      have h1' := bool_of_not _ h1
      by_cases hf : st.fail = true
      · rw [readGo_cons_data_skip T ukf ua uiBlocks b bs st h1' hf]
        exact ih _ t hm httr
      · have hf' := bool_of_not _ hf
        by_cases h4 : T.readOk b = true
        · rw [readGo_cons_data_read_ok T ukf ua uiBlocks b bs st h1' hf' h4]
          exact List.mem_cons_of_mem _ (ih _ t hm httr)
        · rw [readGo_cons_data_read_fail T ukf ua uiBlocks b bs st h1' hf'
            (bool_of_not _ h4)]
          exact List.mem_cons_of_mem _ (ih _ t hm httr)

/-- When every data read succeeds, the failure flag stays clear and every
block of the remaining list is attempted. -/
lemma readGo_data_attempted (T : Transport) (ukf ua : Bool)
    (uiBlocks : Nat) (hsel : T.selectOk = true)
    (hauth : ∀ (c : Nat) (k : List Nat), T.authOk c k = true)
    (hdata : ∀ c : Nat, is_trailer_block c = false → T.readOk c = true) :
    ∀ (bs : List Nat) (st : RState), st.fail = false → ∀ d ∈ bs,
      Event.read d ∈ (readGo T ukf ua uiBlocks bs st).2.2 := by
  intro bs
  induction bs with
  | nil => intro st _ d hd; exact absurd hd (List.not_mem_nil d)
  | cons b bs ih =>
    intro st hf d hd
    have h2 : ((rTally uiBlocks b st).fail && !T.selectOk) = false := by
      rw [hsel]; simp
    have h3 : (authenticate T ukf ua (rTally uiBlocks b st).ktab b).1 =
        true := authenticate_true_of_authOk T ukf ua _ b hauth
    by_cases h1 : is_trailer_block b = true
    · by_cases h4 : T.readOk b = true
      · rw [readGo_cons_trailer_read_ok T ukf ua uiBlocks b bs st h1 h2 h3 h4]
        rcases List.mem_cons.mp hd with he | hm
        · subst he; simp [List.mem_append]
        · simp only [List.mem_append]
          exact Or.inr (ih _ rfl d hm)
      · rw [readGo_cons_trailer_read_fail T ukf ua uiBlocks b bs st h1 h2 h3
          (bool_of_not _ h4)]
        rcases List.mem_cons.mp hd with he | hm
        · subst he; simp [List.mem_append]
        · simp only [List.mem_append]
          exact Or.inr (ih _ rfl d hm)
    · have h1' := bool_of_not _ h1
      rw [readGo_cons_data_read_ok T ukf ua uiBlocks b bs st h1' hf
        (hdata b h1')]
      rcases List.mem_cons.mp hd with he | hm
      · subst he; exact List.mem_cons_self _ _
      · exact List.mem_cons_of_mem _
          (ih { st with dump := fun n =>
              if n = b then T.readData b else st.dump n } hf d hm)

/-- A block whose reads fail never has its dump slot overwritten: a failed
trailer read stores nothing (and, notably, does not set the failure flag),
a failed or suppressed data read stores nothing either. -/
lemma readGo_dump_preserved (T : Transport) (ukf ua : Bool)
    (uiBlocks : Nat) (hsel : T.selectOk = true)
    (hauth : ∀ (c : Nat) (k : List Nat), T.authOk c k = true)
    (t : Nat) (hro : T.readOk t = false) :
    ∀ (bs : List Nat) (st : RState),
      (readGo T ukf ua uiBlocks bs st).2.1.dump t = st.dump t := by
  intro bs
  induction bs with
  | nil => intro st; rfl
  | cons b bs ih =>
    intro st
    have h2 : ((rTally uiBlocks b st).fail && !T.selectOk) = false := by
      rw [hsel]; simp
    have h3 : (authenticate T ukf ua (rTally uiBlocks b st).ktab b).1 =
        true := authenticate_true_of_authOk T ukf ua _ b hauth
    by_cases hbt : t = b
    · subst hbt
      by_cases h1 : is_trailer_block t = true
      · rw [readGo_cons_trailer_read_fail T ukf ua uiBlocks t bs st h1 h2 h3
          hro]
        rw [ih]; simp [rTally_dump]
      · have h1' := bool_of_not _ h1
        by_cases hf : st.fail = true
        · rw [readGo_cons_data_skip T ukf ua uiBlocks t bs st h1' hf]
          exact ih st
        · rw [readGo_cons_data_read_fail T ukf ua uiBlocks t bs st h1'
            (bool_of_not _ hf) hro]
          exact ih _
    · by_cases h1 : is_trailer_block b = true
      · by_cases h4 : T.readOk b = true
        · rw [readGo_cons_trailer_read_ok T ukf ua uiBlocks b bs st h1 h2 h3
            h4]
          rw [ih]; simp [hbt, rTally_dump]
        · rw [readGo_cons_trailer_read_fail T ukf ua uiBlocks b bs st h1 h2
            h3 (bool_of_not _ h4)]
          rw [ih]; simp [rTally_dump]
      · have h1' := bool_of_not _ h1
        by_cases hf : st.fail = true
        · rw [readGo_cons_data_skip T ukf ua uiBlocks b bs st h1' hf]
          exact ih st
        · have hf' := bool_of_not _ hf
          by_cases h4 : T.readOk b = true
          · rw [readGo_cons_data_read_ok T ukf ua uiBlocks b bs st h1' hf'
              h4]
            rw [ih]; simp [hbt]
          · rw [readGo_cons_data_read_fail T ukf ua uiBlocks b bs st h1' hf'
              (bool_of_not _ h4)]
            exact ih _

/-- Peeling the highest block off a descending pass list. -/
lemma range_reverse_succ (n : Nat) :
    (List.range (n + 1)).reverse = n :: (List.range n).reverse := by
  rw [List.range_succ, List.reverse_append]
  rfl

/-- A block lying strictly between a block x and a block bad of the same
sector is not a trailer block: the trailer is the sector's last block. -/
lemma between_not_trailer (x bad b : Nat) (h : sameSector x bad = true)
    (hxb : x ≤ b) (hbb : b < bad) : is_trailer_block b = false := by
  cases hbool : is_trailer_block b with
  | false => rfl
  | true =>
    exfalso
    rw [is_trailer_block_eq_true] at hbool
    rw [sameSector_eq_true] at h
    omega

/-- Main containment invariant of the read pass.  For a data block bad
whose transport read fails, and any lower block x of the same sector, the
descending pass over blocks n-1 .. 0 never reads x and never changes dump
slot x, under the regime discipline: unconditionally while bad lies ahead,
assuming the failure flag once the traversal is strictly between bad and x,
and unconditionally once x is also behind. -/
lemma readGo_containment (T : Transport) (ukf ua : Bool) (uiBlocks : Nat)
    (hsel : T.selectOk = true)
    (hauth : ∀ (c : Nat) (k : List Nat), T.authOk c k = true)
    (bad x : Nat) (hbnt : is_trailer_block bad = false)
    (hbro : T.readOk bad = false) (hsx : sameSector x bad = true)
    (hxlt : x < bad) :
    ∀ (n : Nat) (st : RState),
      (bad < n →
        Event.read x ∉
          (readGo T ukf ua uiBlocks (List.range n).reverse st).2.2 ∧
        (readGo T ukf ua uiBlocks (List.range n).reverse st).2.1.dump x =
          st.dump x) ∧
      (x < n → n ≤ bad → st.fail = true →
        Event.read x ∉
          (readGo T ukf ua uiBlocks (List.range n).reverse st).2.2 ∧
        (readGo T ukf ua uiBlocks (List.range n).reverse st).2.1.dump x =
          st.dump x) ∧
      (n ≤ x →
        Event.read x ∉
          (readGo T ukf ua uiBlocks (List.range n).reverse st).2.2 ∧
        (readGo T ukf ua uiBlocks (List.range n).reverse st).2.1.dump x =
          st.dump x) := by
  intro n
  induction n with
  | zero =>
    intro st
    have e : (List.range 0).reverse = ([] : List Nat) := rfl
    have hQ1 : Event.read x ∉
        (readGo T ukf ua uiBlocks (List.range 0).reverse st).2.2 := by
      rw [e]; simp [readGo]
    have hQ2 : (readGo T ukf ua uiBlocks (List.range 0).reverse st).2.1.dump
        x = st.dump x := rfl
    exact ⟨fun _ => ⟨hQ1, hQ2⟩, fun _ _ _ => ⟨hQ1, hQ2⟩,
      fun _ => ⟨hQ1, hQ2⟩⟩
  | succ n ih =>
    intro st
    rw [range_reverse_succ]
    refine ⟨?_, ?_, ?_⟩
    · intro hblt
      by_cases hbn : bad < n
      · exact readGo_step_frame T ukf ua uiBlocks hsel hauth n x (by omega)
          ((List.range n).reverse) (fun st2 => (ih st2).1 hbn) st
      · have hbeq : bad = n := by omega
        subst hbeq
        by_cases hf : st.fail = true
        · rw [readGo_cons_data_skip T ukf ua uiBlocks bad _ st hbnt hf]
          exact (ih st).2.1 hxlt (le_refl bad) hf
        · rw [readGo_cons_data_read_fail T ukf ua uiBlocks bad _ st hbnt
            (bool_of_not _ hf) hbro]
          have hrec := (ih { st with fail := true }).2.1 hxlt
            (le_refl bad) rfl
          constructor
          · intro hmem
            simp only [List.mem_cons] at hmem
            rcases hmem with he | hmem2
            · rw [Event.read.injEq] at he; omega
            · exact hrec.1 hmem2
          · exact hrec.2
    · intro hx1 hnb hf
      have hnt : is_trailer_block n = false :=
        between_not_trailer x bad n hsx (by omega) (by omega)
      rw [readGo_cons_data_skip T ukf ua uiBlocks n _ st hnt hf]
      by_cases hxn : x < n
      · exact (ih st).2.1 hxn (by omega) hf
      · exact (ih st).2.2 (by omega)
    · intro hnx
      exact readGo_step_frame T ukf ua uiBlocks hsel hauth n x (by omega)
        ((List.range n).reverse) (fun st2 => (ih st2).2.2 (by omega)) st

/-- Amended claim C1.  First part: in any full-card read pass (any card
size, key table, initial dump; reselection and authentication working, as
otherwise the pass aborts), for every DATA block bad whose transport read
fails, every remaining lower-indexed block x of bad's sector is never read
and its dump slot retains its prior content, while the pass still completes
(returns true) and every sector's trailer is still attempted — the failure
is contained to the sector.  Second part: a TRAILER block whose read fails
does not mark the sector failed: its own dump slot retains its prior
content, the trailer is still attempted, and (no data read failing) every
data block of the card is still attempted and the pass completes. -/
theorem c1_read_failure_containment :
    (∀ (T : Transport) (ukf ua : Bool) (uiBlocks : Nat)
       (ktab0 : KeysTable) (dump0 : Nat → List Nat) (bad x : Nat),
      T.selectOk = true →
      (∀ (c : Nat) (k : List Nat), T.authOk c k = true) →
      is_trailer_block bad = false →
      T.readOk bad = false →
      bad ≤ uiBlocks →
      sameSector x bad = true →
      x < bad →
      Event.read x ∉ (read_card T ukf ua uiBlocks ktab0 dump0).2.2 ∧
      (read_card T ukf ua uiBlocks ktab0 dump0).2.1.dump x = dump0 x ∧
      (read_card T ukf ua uiBlocks ktab0 dump0).1 = true ∧
      (∀ t : Nat, t ≤ uiBlocks → is_trailer_block t = true →
        Event.read t ∈ (read_card T ukf ua uiBlocks ktab0 dump0).2.2)) ∧
    (∀ (T : Transport) (ukf ua : Bool) (uiBlocks : Nat)
       (ktab0 : KeysTable) (dump0 : Nat → List Nat) (t : Nat),
      T.selectOk = true →
      (∀ (c : Nat) (k : List Nat), T.authOk c k = true) →
      (∀ c : Nat, is_trailer_block c = false → T.readOk c = true) →
      is_trailer_block t = true →
      T.readOk t = false →
      (read_card T ukf ua uiBlocks ktab0 dump0).2.1.dump t = dump0 t ∧
      (t ≤ uiBlocks →
        Event.read t ∈ (read_card T ukf ua uiBlocks ktab0 dump0).2.2) ∧
      (∀ d : Nat, d ≤ uiBlocks → is_trailer_block d = false →
        Event.read d ∈ (read_card T ukf ua uiBlocks ktab0 dump0).2.2) ∧
      (read_card T ukf ua uiBlocks ktab0 dump0).1 = true) := by
  constructor
  · intro T ukf ua uiBlocks ktab0 dump0 bad x hsel hauth hbnt hbro hble hsx
      hxlt
    have hmain := (readGo_containment T ukf ua uiBlocks hsel hauth bad x
      hbnt hbro hsx hxlt (uiBlocks + 1)
      { ktab := ktab0, dump := dump0, fail := false, cnt := 0 }).1
      (by omega)
    refine ⟨hmain.1, hmain.2, ?_, ?_⟩
    · exact readGo_result_true T ukf ua uiBlocks hsel hauth _ _
    · intro t htle httr
      exact readGo_trailer_attempted T ukf ua uiBlocks hsel hauth _ _ t
        (by rw [List.mem_reverse]; exact List.mem_range.mpr (by omega)) httr
  · intro T ukf ua uiBlocks ktab0 dump0 t hsel hauth hdata httr hro
    refine ⟨?_, ?_, ?_, ?_⟩
    · exact readGo_dump_preserved T ukf ua uiBlocks hsel hauth t hro _ _
    · intro htle
      exact readGo_trailer_attempted T ukf ua uiBlocks hsel hauth _ _ t
        (by rw [List.mem_reverse]; exact List.mem_range.mpr (by omega)) httr
    · intro d hdle hdnt
      exact readGo_data_attempted T ukf ua uiBlocks hsel hauth hdata _ _ rfl
        d (by rw [List.mem_reverse]; exact List.mem_range.mpr (by omega))
    · exact readGo_result_true T ukf ua uiBlocks hsel hauth _ _

/-- Witness for amended C1: a 1K pass in which data block 62's read fails
(block 61 of the same sector skipped, its zero dump slot kept, pass
completes, every trailer attempted), and a 1K pass in which trailer 63's
read fails (its dump slot kept, trailer attempted, every data block still
attempted, pass completes). -/
theorem c1_read_failure_containment_witness :
    ((failRead 62).selectOk = true ∧
     is_trailer_block 62 = false ∧
     (failRead 62).readOk 62 = false ∧
     (62 : Nat) ≤ 63 ∧
     sameSector 61 62 = true ∧
     (61 : Nat) < 62 ∧
     (Event.read 61 ∉
        (read_card (failRead 62) false true 63 zeroTable zeroDump).2.2 ∧
      (read_card (failRead 62) false true 63 zeroTable
        zeroDump).2.1.dump 61 = zeroDump 61 ∧
      (read_card (failRead 62) false true 63 zeroTable zeroDump).1 = true ∧
      (∀ t : Nat, t ≤ 63 → is_trailer_block t = true →
        Event.read t ∈
          (read_card (failRead 62) false true 63 zeroTable zeroDump).2.2))) ∧
    ((failRead 63).selectOk = true ∧
     is_trailer_block 63 = true ∧
     (failRead 63).readOk 63 = false ∧
     ((read_card (failRead 63) false true 63 zeroTable
        zeroDump).2.1.dump 63 = zeroDump 63 ∧
      ((63 : Nat) ≤ 63 →
        Event.read 63 ∈
          (read_card (failRead 63) false true 63 zeroTable zeroDump).2.2) ∧
      (∀ d : Nat, d ≤ 63 → is_trailer_block d = false →
        Event.read d ∈
          (read_card (failRead 63) false true 63 zeroTable zeroDump).2.2) ∧
      (read_card (failRead 63) false true 63 zeroTable zeroDump).1 =
        true)) :=
  ⟨⟨rfl, by decide, by decide, by decide, by decide, by decide,
    c1_read_failure_containment.1 (failRead 62) false true 63 zeroTable
      zeroDump 62 61 rfl (fun _ _ => rfl) (by decide) (by decide)
      (by decide) (by decide) (by decide)⟩,
   ⟨rfl, by decide, by decide,
    c1_read_failure_containment.2 (failRead 63) false true 63 zeroTable
      zeroDump 63 rfl (fun _ _ => rfl)
      (fun c hc => by
        show decide (c ≠ 63) = true
        rw [decide_eq_true_eq]
        intro he
        rw [he] at hc
        exact absurd hc (by decide))
      (by decide) (by decide)⟩⟩

end MFC
